import Mathlib

/-!
Verification development for the `bristol-circuit` crate: a shallow embedding of
`src/bristol_circuit.rs`, `src/gate.rs`, `src/circuit_info.rs` and
`src/bristol_circuit_error.rs`, together with theorems about the read/write
conversion between structured circuits and the Bristol text format.

Modelling conventions:
* Rust `usize` values are modelled as `Nat` (the claims under study do not
  depend on 64-bit overflow).
* A buffered input stream is modelled as its list of lines (`List String`);
  `linesOf` decomposes a whole input string into that list.
* Rust `HashMap`s are modelled as association lists; the conversion engine
  only ever uses their length (`len()`) and passes them through unchanged.
* `BufRead::read_line` returns `Ok(0)` at end of file, leaving the buffer
  empty; the skip-blank-lines loop in `BristolLine::read` therefore never
  exits once the stream is exhausted.  This non-termination is represented
  explicitly by the `ReadOutcome.diverges` constructor.
-/

/-- Models Rust `char::is_whitespace`: the Unicode `White_Space` property. -/
def isWs (c : Char) : Bool :=
  let n := c.toNat
  n == 9 || n == 10 || n == 11 || n == 12 || n == 13 || n == 32 ||
  n == 0x85 || n == 0xA0 || n == 0x1680 ||
  (decide (0x2000 ≤ n) && decide (n ≤ 0x200A)) ||
  n == 0x2028 || n == 0x2029 || n == 0x202F || n == 0x205F || n == 0x3000

/-- Models `str::parse::<usize>` (`usize::from_str`): an optional leading `+`
sign followed by one or more ASCII digits; anything else is an error.
The numeric value is unbounded here (`Nat`), overflow is not modelled. -/
def parseNat (s : String) : Option Nat :=
  let cs := if s.data.head? = some '+' then s.data.tail else s.data
  if !cs.isEmpty && cs.all Char.isDigit then
    some (cs.foldl (fun a c => a * 10 + (c.toNat - 48)) 0)
  else
    none

/-- `Gate` from `src/gate.rs`. -/
structure Gate where
  inputs : List Nat
  outputs : List Nat
  op : String
deriving DecidableEq

/-- `ConstantInfo` from `src/circuit_info.rs`. -/
structure ConstantInfo where
  value : String
  wire_index : Nat
deriving DecidableEq

/-- `CircuitInfo` from `src/circuit_info.rs`.  The `HashMap`s are modelled as
association lists: the engine only uses `len()` and copies them through. -/
structure CircuitInfo where
  input_name_to_wire_index : List (String × Nat)
  constants : List (String × ConstantInfo)
  output_name_to_wire_index : List (String × Nat)
deriving DecidableEq

/-- `BristolCircuit` from `src/bristol_circuit.rs`. -/
structure BristolCircuit where
  wire_count : Nat
  info : CircuitInfo
  gates : List Gate
deriving DecidableEq

/-- `BristolCircuitError` from `src/bristol_circuit_error.rs`. -/
inductive BristolCircuitError where
  | ParsingError (message : String)
  | ParseIntError
  | IOError
  | Inconsistency (message : String)
deriving DecidableEq

deriving instance DecidableEq for Except

/-- Result of a read operation.  `diverges` records that the Rust code fails
to terminate (see the remark on `read_line` at end of file in the header). -/
inductive ReadOutcome (α : Type) where
  | diverges
  | error (e : BristolCircuitError)
  | ok (a : α)
deriving DecidableEq

/-- The body of the `for _ in ...` loop of `write_bristol` that emits one
`" 1"` per port. -/
def writeOnes : Nat → String
  | 0 => ""
  | k + 1 => " 1" ++ writeOnes k

/-- The loops of `impl Display for Gate` that emit `" {index}"` per wire. -/
def writeIdxs : List Nat → String
  | [] => ""
  | i :: is => " " ++ Nat.repr i ++ writeIdxs is

/-- `impl Display for Gate` (`src/gate.rs`): arities, input wires, output
wires, then the op label, space-separated. -/
def Gate.display (g : Gate) : String :=
  Nat.repr g.inputs.length ++ " " ++ Nat.repr g.outputs.length ++
    writeIdxs g.inputs ++ writeIdxs g.outputs ++ " " ++ g.op

/-- The lines emitted by `BristolCircuit::write_bristol`, in order: sizes,
input port line, output port line, a blank separator, one line per gate. -/
def BristolCircuit.writeLines (c : BristolCircuit) : List String :=
  [Nat.repr c.gates.length ++ " " ++ Nat.repr c.wire_count,
   Nat.repr c.info.input_name_to_wire_index.length ++
     writeOnes c.info.input_name_to_wire_index.length,
   Nat.repr c.info.output_name_to_wire_index.length ++
     writeOnes c.info.output_name_to_wire_index.length,
   ""] ++ c.gates.map Gate.display

/-- Joins lines as `writeln!` does: every line is followed by a newline. -/
def joinLines : List String → String
  | [] => ""
  | l :: ls => l ++ "\n" ++ joinLines ls

/-- `BristolCircuit::write_bristol`: the exact text written to the stream.
Writing to an in-memory buffer cannot fail, so the result is a plain string. -/
def BristolCircuit.write_bristol (c : BristolCircuit) : String :=
  joinLines c.writeLines

/-- `BristolCircuit::get_bristol_string`: collects `write_bristol` output into
a string.  The UTF-8 re-decoding step cannot fail (the bytes written came from
strings), so the error branch is dead and the result is always `ok`. -/
def BristolCircuit.get_bristol_string (c : BristolCircuit) :
    Except BristolCircuitError String :=
  .ok c.write_bristol

/-- Accumulator-based whitespace tokenizer over the characters of a line. -/
def splitWsAux : List Char → List Char → List String
  | [], acc => if acc.isEmpty then [] else [String.mk acc.reverse]
  | c :: cs, acc =>
    if isWs c then
      if acc.isEmpty then splitWsAux cs []
      else String.mk acc.reverse :: splitWsAux cs []
    else splitWsAux cs (c :: acc)

/-- Models Rust `str::split_whitespace` (empty tokens dropped).  The source
trims the line before splitting; trimming does not change the token list. -/
def splitWs (s : String) : List String := splitWsAux s.data []

/-- Models `line.trim().is_empty()`: true iff every character is whitespace. -/
def isBlank (s : String) : Bool := s.data.all isWs

/-- `BristolLine::read`: skip lines that are blank after trimming and return
the first non-blank line split into whitespace-delimited tokens, together
with the remaining lines.  `none` models the case where the stream is
exhausted first: `read_line` then returns `Ok(0)` with an empty buffer
forever and the Rust loop never terminates. -/
def BristolLine.read : List String → Option (List String × List String)
  | [] => none
  | l :: ls => if isBlank l then BristolLine.read ls else some (splitWs l, ls)

/-- `BristolLine::get::<usize>`: bounds-checked token access followed by an
integer parse, with the error messages of the source. -/
def BristolLine.get (l : List String) (index : Nat) :
    Except BristolCircuitError Nat :=
  match l.get? index with
  | none => .error (.ParsingError ("Index " ++ Nat.repr index ++ " out of bounds"))
  | some s =>
    match parseNat s with
    | none => .error (.ParsingError ("Failed to convert at index " ++ Nat.repr index))
    | some n => .ok n

/-- `BristolLine::get::<String>`: the `String::from_str` parse is infallible,
so only the bounds check can fail.  `BristolLine::get_str` has the same
behaviour and error message. -/
def BristolLine.getString (l : List String) (index : Nat) :
    Except BristolCircuitError String :=
  match l.get? index with
  | none => .error (.ParsingError ("Index " ++ Nat.repr index ++ " out of bounds"))
  | some s => .ok s

/-- `BristolLine::circuit_sizes`: fields 0 and 1 as `(gate_count, wire_count)`. -/
def BristolLine.circuit_sizes (l : List String) :
    Except BristolCircuitError (Nat × Nat) := do
  let a ← BristolLine.get l 0
  let b ← BristolLine.get l 1
  return (a, b)

/-- The `for i in 1..len` loop of `BristolLine::io_count`: every remaining
token must be the literal string `"1"`; `i` tracks the token index used in
the error message. -/
def checkOnesFrom : List String → Nat → Except BristolCircuitError Unit
  | [], _ => .ok ()
  | t :: ts, i =>
    if t = "1" then checkOnesFrom ts (i + 1)
    else .error (.ParsingError ("Expected 1 at index " ++ Nat.repr i))

/-- `BristolLine::io_count`: field 0 is the port count; the line must have
exactly `count + 1` tokens and every width token must be the literal `"1"`. -/
def BristolLine.io_count (l : List String) : Except BristolCircuitError Nat := do
  let count ← BristolLine.get l 0
  if l.length ≠ count + 1 then
    .error (.ParsingError ("Expected " ++ Nat.repr (count + 1) ++ " parts"))
  else
    match checkOnesFrom (l.drop 1) 1 with
    | .error e => .error e
    | .ok _ => return count

/-- The `for i in 0..len { ... self.get(start + i)? ... }` loops of
`BristolLine::gate`, collecting `k` integers starting at token `start`. -/
def getNatsFrom (l : List String) : Nat → Nat → Except BristolCircuitError (List Nat)
  | _, 0 => .ok []
  | start, k + 1 => do
    let v ← BristolLine.get l start
    let vs ← getNatsFrom l (start + 1) k
    return (v :: vs)

/-- `BristolLine::gate`: parse arities, check the exact token count
`input_len + output_len + 3`, then read the wire indices and the op label. -/
def BristolLine.gate (l : List String) : Except BristolCircuitError Gate := do
  let input_len ← BristolLine.get l 0
  let output_len ← BristolLine.get l 1
  let expected_part_len := input_len + output_len + 3
  if l.length ≠ expected_part_len then
    .error (.ParsingError ("Inconsistent part length (actual: " ++
      Nat.repr l.length ++ ", expected: " ++ Nat.repr expected_part_len ++ ")"))
  else
    do
      let inputs ← getNatsFrom l 2 input_len
      let outputs ← getNatsFrom l (2 + input_len) output_len
      let op ← BristolLine.getString l (input_len + output_len + 2)
      return { inputs := inputs, outputs := outputs, op := op }

/-- The `for _ in 0..gate_count` loop of `read_info_and_bristol`: read one
non-blank line per gate and parse it. -/
def readGates : Nat → List String → ReadOutcome (List Gate × List String)
  | 0, ls => .ok ([], ls)
  | n + 1, ls =>
    match BristolLine.read ls with
    | none => .diverges
    | some (l, rest) =>
      match BristolLine.gate l with
      | .error e => .error e
      | .ok g =>
        match readGates n rest with
        | .ok (gs, rest2) => .ok (g :: gs, rest2)
        | .error e => .error e
        | .diverges => .diverges

/-- The trailing `for line in r.lines()` loop of `read_info_and_bristol`:
every remaining line must be blank after trimming. -/
def checkTrailing : List String → Except BristolCircuitError Unit
  | [] => .ok ()
  | l :: ls =>
    if isBlank l then checkTrailing ls
    else .error (.ParsingError "Unexpected non-whitespace line after gates")

/-- `BristolCircuit::read_info_and_bristol`, on a stream given as its list of
lines: sizes line, input port line (cross-checked against `info`), output
port line (likewise), `gate_count` gate lines, then only blank lines. -/
def BristolCircuit.read_info_and_bristol (info : CircuitInfo) (ls : List String) :
    ReadOutcome BristolCircuit :=
  match BristolLine.read ls with
  | none => .diverges
  | some (l1, ls1) =>
    match BristolLine.circuit_sizes l1 with
    | .error e => .error e
    | .ok (gate_count, wire_count) =>
      match BristolLine.read ls1 with
      | none => .diverges
      | some (l2, ls2) =>
        match BristolLine.io_count l2 with
        | .error e => .error e
        | .ok input_count =>
          if input_count ≠ info.input_name_to_wire_index.length then
            .error (.Inconsistency "Input count mismatch")
          else
            match BristolLine.read ls2 with
            | none => .diverges
            | some (l3, ls3) =>
              match BristolLine.io_count l3 with
              | .error e => .error e
              | .ok output_count =>
                if output_count ≠ info.output_name_to_wire_index.length then
                  .error (.Inconsistency "Output count mismatch")
                else
                  match readGates gate_count ls3 with
                  | .diverges => .diverges
                  | .error e => .error e
                  | .ok (gates, rest) =>
                    match checkTrailing rest with
                    | .error e => .error e
                    | .ok _ => .ok { wire_count := wire_count, info := info, gates := gates }

/-- Split a character list at newline characters (the decomposition performed
by `BufRead::read_line`, with the newline terminators removed). -/
def splitOnNl : List Char → List (List Char)
  | [] => [[]]
  | c :: cs =>
    if c = '\n' then [] :: splitOnNl cs
    else
      match splitOnNl cs with
      | t :: ts => (c :: t) :: ts
      | [] => [[c]]

/-- The list of lines of a string, as delivered by a `BufReader` over it. -/
def linesOf (s : String) : List String := (splitOnNl s.data).map String.mk

/-- `BristolCircuit::from_info_and_bristol_string`: read from an in-memory
string. -/
def BristolCircuit.from_info_and_bristol_string (info : CircuitInfo) (input : String) :
    ReadOutcome BristolCircuit :=
  BristolCircuit.read_info_and_bristol info (linesOf input)

/-! ### Decimal rendering round-trip -/

/-- Value of a digit-character list under the fold used by `parseNat`. -/
def pv (cs : List Char) : Nat := cs.foldl (fun a c => a * 10 + (c.toNat - 48)) 0

theorem pv_append_one (xs : List Char) (c : Char) :
    pv (xs ++ [c]) = pv xs * 10 + (c.toNat - 48) := by
  simp [pv, List.foldl_append]

theorem digitChar_good : ∀ m, m < 10 →
    (Nat.digitChar m).isDigit = true ∧ isWs (Nat.digitChar m) = false ∧
      (Nat.digitChar m).toNat - 48 = m := by decide

theorem toDigitsCore_shift (f : Nat) : ∀ (n : Nat) (acc : List Char),
    Nat.toDigitsCore 10 f n acc = Nat.toDigitsCore 10 f n [] ++ acc := by
  induction f with
  | zero => intro n acc; simp [Nat.toDigitsCore]
  | succ f ih =>
    intro n acc
    simp only [Nat.toDigitsCore]
    by_cases h : n / 10 = 0
    · simp [h]
    · simp only [h, if_false]
      rw [ih (n / 10) (Nat.digitChar (n % 10) :: acc),
          ih (n / 10) [Nat.digitChar (n % 10)]]
      simp

theorem toDigitsCore_spec : ∀ (f n : Nat), n < f →
    pv (Nat.toDigitsCore 10 f n []) = n ∧
    Nat.toDigitsCore 10 f n [] ≠ [] ∧
    ∀ c ∈ Nat.toDigitsCore 10 f n [], c.isDigit = true ∧ isWs c = false := by
  intro f
  induction f with
  | zero => intro n hn; omega
  | succ f ih =>
    intro n hn
    simp only [Nat.toDigitsCore]
    by_cases h : n / 10 = 0
    · have hlt : n < 10 := by omega
      have hmod : n % 10 = n := Nat.mod_eq_of_lt hlt
      obtain ⟨hdig, hws, hval⟩ := digitChar_good (n % 10) (by omega)
      refine ⟨?_, by simp [h], ?_⟩
      · simp only [h, if_true]
        simpa [pv, hmod] using hval
      · simp only [h, if_true]
        intro c hc
        simp at hc
        subst hc
        exact ⟨hdig, hws⟩
    · have hpos : 0 < n := by
        rcases Nat.eq_zero_or_pos n with h0 | h0
        · exact absurd (by simp [h0]) h
        · exact h0
      have hdiv : n / 10 < f := by
        have := Nat.div_lt_self hpos (by norm_num : 1 < 10)
        omega
      obtain ⟨hv, hne, hall⟩ := ih (n / 10) hdiv
      obtain ⟨hdig, hws, hval⟩ := digitChar_good (n % 10) (Nat.mod_lt _ (by norm_num))
      simp only [h, if_false]
      rw [toDigitsCore_shift]
      refine ⟨?_, by simp, ?_⟩
      · rw [pv_append_one, hv, hval]
        omega
      · intro c hc
        rcases List.mem_append.mp hc with hc | hc
        · exact hall c hc
        · simp at hc
          subst hc
          exact ⟨hdig, hws⟩

theorem toDigits_spec (n : Nat) :
    pv (Nat.toDigits 10 n) = n ∧ Nat.toDigits 10 n ≠ [] ∧
    ∀ c ∈ Nat.toDigits 10 n, c.isDigit = true ∧ isWs c = false :=
  toDigitsCore_spec (n + 1) n (Nat.lt_succ_self n)

theorem repr_data (n : Nat) : (Nat.repr n).data = Nat.toDigits 10 n := rfl

/-- Printing a `usize` in decimal and parsing it back is the identity. -/
theorem parseNat_repr (n : Nat) : parseNat (Nat.repr n) = some n := by
  obtain ⟨hv, hne, hall⟩ := toDigits_spec n
  unfold parseNat
  rw [repr_data]
  have hplus : ¬ (Nat.toDigits 10 n).head? = some '+' := by
    intro hcontra
    cases hd : Nat.toDigits 10 n with
    | nil => rw [hd] at hcontra; simp at hcontra
    | cons c rest =>
      rw [hd] at hcontra
      simp at hcontra
      have : ('+' : Char).isDigit = true := by
        have := hall c (by rw [hd]; simp)
        rw [hcontra] at this
        exact this.1
      simp at this
  rw [if_neg hplus]
  have hemp : (Nat.toDigits 10 n).isEmpty = false := by
    cases hd : Nat.toDigits 10 n with
    | nil => exact absurd hd hne
    | cons c rest => rfl
  have hdig : (Nat.toDigits 10 n).all Char.isDigit = true :=
    List.all_eq_true.mpr fun c hc => (hall c hc).1
  simp only [hemp, hdig, Bool.not_false, Bool.and_self, if_true]
  exact congrArg some hv

/-! ### Whitespace tokenization -/

/-- A good token: non-empty and free of whitespace characters. -/
def GoodTok (t : List Char) : Prop := t ≠ [] ∧ ∀ c ∈ t, isWs c = false

/-- Character list consisting of the given tokens, each preceded by one
space: the shape of everything the writer emits after a line's first token. -/
def wsJoin : List (List Char) → List Char
  | [] => []
  | u :: us => ' ' :: (u ++ wsJoin us)

theorem wsJoin_append (a b : List (List Char)) :
    wsJoin (a ++ b) = wsJoin a ++ wsJoin b := by
  induction a with
  | nil => simp [wsJoin]
  | cons u us ih => simp [wsJoin, ih]

theorem splitWsAux_nonws (t : List Char) : ∀ (r acc : List Char),
    (∀ c ∈ t, isWs c = false) →
    splitWsAux (t ++ r) acc = splitWsAux r (t.reverse ++ acc) := by
  induction t with
  | nil => intro r acc _; simp
  | cons c t ih =>
    intro r acc h
    have hc : isWs c = false := h c (by simp)
    simp only [List.cons_append, splitWsAux, hc, Bool.false_eq_true, if_false]
    show splitWsAux (t ++ r) (c :: acc) = splitWsAux r ((c :: t).reverse ++ acc)
    rw [ih r (c :: acc) (fun d hd => h d (by simp [hd]))]
    simp

theorem splitWsAux_token_space (t r : List Char) (hne : t ≠ [])
    (h : ∀ c ∈ t, isWs c = false) :
    splitWsAux (t ++ ' ' :: r) [] = String.mk t :: splitWsAux r [] := by
  rw [splitWsAux_nonws t (' ' :: r) [] h]
  have hsp : isWs ' ' = true := by decide
  have hrev : (t.reverse ++ []).isEmpty = false := by
    cases ht : t.reverse with
    | nil => exact absurd (by simpa using ht) hne
    | cons a b => rfl
  simp only [splitWsAux, hsp, if_true, hrev, Bool.false_eq_true, if_false]
  simp

theorem splitWsAux_token_end (t : List Char) (hne : t ≠ [])
    (h : ∀ c ∈ t, isWs c = false) :
    splitWsAux t [] = [String.mk t] := by
  have := splitWsAux_nonws t [] [] h
  rw [List.append_nil] at this
  rw [this]
  have hrev : (t.reverse ++ []).isEmpty = false := by
    cases ht : t.reverse with
    | nil => exact absurd (by simpa using ht) hne
    | cons a b => rfl
  simp only [splitWsAux, hrev, Bool.false_eq_true, if_false]
  simp

/-- Tokenizing `tok₀ tok₁ ... tokₙ` recovers exactly the tokens. -/
theorem splitWsAux_head_join : ∀ (ts : List (List Char)) (t : List Char),
    GoodTok t → (∀ u ∈ ts, GoodTok u) →
    splitWsAux (t ++ wsJoin ts) [] = String.mk t :: ts.map String.mk := by
  intro ts
  induction ts with
  | nil =>
    intro t ht _
    simp only [wsJoin, List.append_nil, List.map_nil]
    exact splitWsAux_token_end t ht.1 ht.2
  | cons u us ih =>
    intro t ht hus
    simp only [wsJoin]
    have : t ++ ' ' :: (u ++ wsJoin us) = t ++ ' ' :: (u ++ wsJoin us) := rfl
    rw [splitWsAux_token_space t (u ++ wsJoin us) ht.1 ht.2]
    rw [ih u (hus u (by simp)) (fun v hv => hus v (by simp [hv]))]
    simp

/-! ### Shape of the writer's output -/

theorem mk_data (s : String) : String.mk s.data = s := rfl

theorem repr_goodTok (n : Nat) : GoodTok (Nat.repr n).data := by
  obtain ⟨_, hne, hall⟩ := toDigits_spec n
  exact ⟨by rw [repr_data]; exact hne,
         by rw [repr_data]; exact fun c hc => (hall c hc).2⟩

theorem one_goodTok : GoodTok ['1'] := by
  constructor
  · simp
  · intro c hc
    simp at hc
    subst hc
    decide

theorem writeIdxs_data (is : List Nat) :
    (writeIdxs is).data = wsJoin (is.map (fun i => (Nat.repr i).data)) := by
  induction is with
  | nil => rfl
  | cons i is ih =>
    simp only [writeIdxs, List.map_cons, wsJoin, String.data_append, ih]
    rfl

theorem writeOnes_data (k : Nat) :
    (writeOnes k).data = wsJoin (List.replicate k ['1']) := by
  induction k with
  | zero => rfl
  | succ k ih =>
    simp only [writeOnes, List.replicate_succ, wsJoin, String.data_append, ih]
    rfl

theorem display_data (g : Gate) :
    (Gate.display g).data = (Nat.repr g.inputs.length).data ++
      wsJoin ([(Nat.repr g.outputs.length).data] ++
        g.inputs.map (fun i => (Nat.repr i).data) ++
        g.outputs.map (fun o => (Nat.repr o).data) ++ [g.op.data]) := by
  simp only [Gate.display, String.data_append, writeIdxs_data, wsJoin_append, wsJoin]
  simp [wsJoin, wsJoin_append]

theorem sizes_line_data (a b : Nat) :
    (Nat.repr a ++ " " ++ Nat.repr b).data =
      (Nat.repr a).data ++ wsJoin [(Nat.repr b).data] := by
  simp only [String.data_append, wsJoin]
  simp

theorem ports_line_data (k : Nat) :
    (Nat.repr k ++ writeOnes k).data =
      (Nat.repr k).data ++ wsJoin (List.replicate k ['1']) := by
  simp only [String.data_append, writeOnes_data]

/-- Tokens of the sizes line. -/
theorem splitWs_sizes_line (a b : Nat) :
    splitWs (Nat.repr a ++ " " ++ Nat.repr b) = [Nat.repr a, Nat.repr b] := by
  show splitWsAux (Nat.repr a ++ " " ++ Nat.repr b).data [] = _
  rw [sizes_line_data,
      splitWsAux_head_join [(Nat.repr b).data] (Nat.repr a).data (repr_goodTok a)
        (by intro u hu; simp at hu; subst hu; exact repr_goodTok b)]
  rfl

/-- Tokens of an input/output port line: the count then `k` copies of `"1"`. -/
theorem splitWs_ports_line (k : Nat) :
    splitWs (Nat.repr k ++ writeOnes k) = Nat.repr k :: List.replicate k "1" := by
  show splitWsAux (Nat.repr k ++ writeOnes k).data [] = _
  rw [ports_line_data,
      splitWsAux_head_join (List.replicate k ['1']) (Nat.repr k).data (repr_goodTok k)
        (by intro u hu; rw [List.eq_of_mem_replicate hu]; exact one_goodTok)]
  rw [List.map_replicate]

/-- Tokens of a rendered gate line. -/
theorem splitWs_display (g : Gate) (hop : GoodTok g.op.data) :
    splitWs g.display = [Nat.repr g.inputs.length, Nat.repr g.outputs.length] ++
      g.inputs.map Nat.repr ++ g.outputs.map Nat.repr ++ [g.op] := by
  have hts : ∀ u ∈ ([(Nat.repr g.outputs.length).data] ++
      g.inputs.map (fun i => (Nat.repr i).data) ++
      g.outputs.map (fun o => (Nat.repr o).data) ++ [g.op.data]), GoodTok u := by
    intro u hu
    rcases List.mem_append.mp hu with hu | hu
    · rcases List.mem_append.mp hu with hu | hu
      · rcases List.mem_append.mp hu with hu | hu
        · rw [List.mem_singleton.mp hu]
          exact repr_goodTok _
        · obtain ⟨i, _, hi⟩ := List.mem_map.mp hu
          rw [← hi]
          exact repr_goodTok i
      · obtain ⟨o, _, ho⟩ := List.mem_map.mp hu
        rw [← ho]
        exact repr_goodTok o
    · rw [List.mem_singleton.mp hu]
      exact hop
  show splitWsAux (Gate.display g).data [] = _
  rw [display_data, splitWsAux_head_join _ _ (repr_goodTok g.inputs.length) hts]
  simp only [List.map_append, List.map_map, List.map_cons, List.map_nil]
  have h1 : (String.mk ∘ fun i : Nat => (Nat.repr i).data) = Nat.repr := by
    funext i
    rfl
  rw [h1]
  rfl

/-! ### Line decomposition of the written text -/

theorem splitOnNl_append (l : List Char) (rest : List Char)
    (h : ∀ c ∈ l, c ≠ '\n') :
    splitOnNl (l ++ '\n' :: rest) = l :: splitOnNl rest := by
  induction l with
  | nil =>
    simp [splitOnNl]
  | cons c l ih =>
    have hc : c ≠ '\n' := h c (by simp)
    simp only [List.cons_append, splitOnNl, hc, if_false]
    rw [show l.append ('\n' :: rest) = l ++ '\n' :: rest from rfl,
        ih (fun d hd => h d (by simp [hd]))]

theorem linesOf_joinLines : ∀ ls : List String,
    (∀ l ∈ ls, ∀ c ∈ l.data, c ≠ '\n') →
    linesOf (joinLines ls) = ls ++ [""] := by
  intro ls
  induction ls with
  | nil => intro _; rfl
  | cons l ls ih =>
    intro h
    have hl : ∀ c ∈ l.data, c ≠ '\n' := h l (by simp)
    show (splitOnNl (l ++ "\n" ++ joinLines ls).data).map String.mk = _
    have hd : (l ++ "\n" ++ joinLines ls).data = l.data ++ '\n' :: (joinLines ls).data := by
      simp [String.data_append]
    rw [hd, splitOnNl_append l.data (joinLines ls).data hl]
    simp only [List.map_cons, mk_data]
    rw [show (splitOnNl (joinLines ls).data).map String.mk = linesOf (joinLines ls) from rfl,
        ih (fun m hm => h m (by simp [hm]))]
    rfl

/-- Characters of `wsJoin ts` are spaces or characters of the tokens. -/
theorem wsJoin_chars : ∀ ts : List (List Char), (∀ u ∈ ts, ∀ c ∈ u, isWs c = false) →
    ∀ c ∈ wsJoin ts, c = ' ' ∨ isWs c = false := by
  intro ts
  induction ts with
  | nil => intro _ c hc; simp [wsJoin] at hc
  | cons u us ih =>
    intro h c hc
    simp only [wsJoin, List.mem_cons, List.mem_append] at hc
    rcases hc with hc | hc | hc
    · exact Or.inl hc
    · exact Or.inr (h u (by simp) c hc)
    · exact ih (fun v hv => h v (by simp [hv])) c hc

/-- A line of the form `tok₀ tok₁ ... tokₙ` contains no newline. -/
theorem token_line_no_nl (s : String) (t : List Char) (ts : List (List Char))
    (hd : s.data = t ++ wsJoin ts)
    (ht : ∀ c ∈ t, isWs c = false)
    (hts : ∀ u ∈ ts, ∀ c ∈ u, isWs c = false) :
    ∀ c ∈ s.data, c ≠ '\n' := by
  intro c hc
  rw [hd] at hc
  have hnlws : isWs '\n' = true := by decide
  rcases List.mem_append.mp hc with hc | hc
  · intro hcontra
    rw [hcontra] at hc
    rw [ht '\n' hc] at hnlws
    exact Bool.false_ne_true hnlws
  · rcases wsJoin_chars ts hts c hc with h | h
    · rw [h]
      decide
    · intro hcontra
      rw [hcontra] at h
      rw [h] at hnlws
      exact Bool.false_ne_true hnlws

/-- A line starting with a non-whitespace token is not blank. -/
theorem token_line_not_blank (s : String) (t : List Char) (ts : List (List Char))
    (hd : s.data = t ++ wsJoin ts) (hne : t ≠ []) (ht : ∀ c ∈ t, isWs c = false) :
    isBlank s = false := by
  unfold isBlank
  rw [hd]
  cases t with
  | nil => exact absurd rfl hne
  | cons c t =>
    have hc : isWs c = false := ht c (by simp)
    simp [List.all_cons, hc]

/-! ### Evaluating the reader on the writer's output -/

theorem except_bind_ok {α β : Type} (a : α)
    (f : α → Except BristolCircuitError β) :
    ((Except.ok a : Except BristolCircuitError α) >>= f) = f a := rfl

theorem get_eval (l : List String) (i n : Nat)
    (h : l.get? i = some (Nat.repr n)) : BristolLine.get l i = .ok n := by
  unfold BristolLine.get
  rw [h]
  simp [parseNat_repr]

theorem getString_eval (l : List String) (i : Nat) (s : String)
    (h : l.get? i = some s) : BristolLine.getString l i = .ok s := by
  unfold BristolLine.getString
  rw [h]

theorem circuit_sizes_eval (a b : Nat) (l : List String)
    (h0 : l.get? 0 = some (Nat.repr a)) (h1 : l.get? 1 = some (Nat.repr b)) :
    BristolLine.circuit_sizes l = .ok (a, b) := by
  unfold BristolLine.circuit_sizes
  rw [get_eval l 0 a h0, except_bind_ok, get_eval l 1 b h1]
  rfl

theorem checkOnes_replicate : ∀ (k i : Nat),
    checkOnesFrom (List.replicate k "1") i = .ok () := by
  intro k
  induction k with
  | zero => intro i; rfl
  | succ k ih =>
    intro i
    simp only [List.replicate_succ, checkOnesFrom, if_pos rfl]
    exact ih (i + 1)

theorem io_count_ports (k : Nat) :
    BristolLine.io_count (Nat.repr k :: List.replicate k "1") = .ok k := by
  unfold BristolLine.io_count
  rw [get_eval (Nat.repr k :: List.replicate k "1") 0 k rfl, except_bind_ok]
  have hlen : (Nat.repr k :: List.replicate k "1").length = k + 1 := by simp
  rw [if_neg (by rw [hlen]; exact fun hcontra => hcontra rfl)]
  have hdrop : (Nat.repr k :: List.replicate k "1").drop 1 = List.replicate k "1" := rfl
  rw [hdrop, checkOnes_replicate k 1]
  rfl

theorem getNatsFrom_eval : ∀ (vs : List Nat) (pre post : List String),
    getNatsFrom (pre ++ vs.map Nat.repr ++ post) pre.length vs.length = .ok vs := by
  intro vs
  induction vs with
  | nil => intro pre post; rfl
  | cons v vs ih =>
    intro pre post
    have hget : (pre ++ (v :: vs).map Nat.repr ++ post).get? pre.length =
        some (Nat.repr v) := by
      rw [List.map_cons, List.append_assoc,
          List.get?_append_right (Nat.le_refl pre.length)]
      simp
    show getNatsFrom (pre ++ (v :: vs).map Nat.repr ++ post) pre.length (vs.length + 1) = _
    unfold getNatsFrom
    rw [get_eval _ pre.length v hget, except_bind_ok]
    have hre : pre ++ (v :: vs).map Nat.repr ++ post =
        (pre ++ [Nat.repr v]) ++ vs.map Nat.repr ++ post := by
      simp
    have hlen : pre.length + 1 = (pre ++ [Nat.repr v]).length := by
      simp
    rw [hre, hlen, ih (pre ++ [Nat.repr v]) post, except_bind_ok]
    rfl

/-- Parsing the rendered form of a gate recovers the gate. -/
theorem gate_display_parse (g : Gate) (hop : GoodTok g.op.data) :
    BristolLine.gate (splitWs g.display) = .ok g := by
  rw [splitWs_display g hop]
  set l : List String := [Nat.repr g.inputs.length, Nat.repr g.outputs.length] ++
      g.inputs.map Nat.repr ++ g.outputs.map Nat.repr ++ [g.op] with hl
  have h0 : l.get? 0 = some (Nat.repr g.inputs.length) := by rw [hl]; rfl
  have h1 : l.get? 1 = some (Nat.repr g.outputs.length) := by rw [hl]; rfl
  have hlen : l.length = g.inputs.length + g.outputs.length + 3 := by
    rw [hl]
    simp
    omega
  unfold BristolLine.gate
  rw [get_eval l 0 _ h0, except_bind_ok, get_eval l 1 _ h1, except_bind_ok]
  rw [if_neg (by rw [hlen]; exact fun hcontra => hcontra rfl)]
  have hins : getNatsFrom l 2 g.inputs.length = .ok g.inputs := by
    have := getNatsFrom_eval g.inputs
      [Nat.repr g.inputs.length, Nat.repr g.outputs.length]
      (g.outputs.map Nat.repr ++ [g.op])
    simpa [hl] using this
  have houts : getNatsFrom l (2 + g.inputs.length) g.outputs.length = .ok g.outputs := by
    have := getNatsFrom_eval g.outputs
      ([Nat.repr g.inputs.length, Nat.repr g.outputs.length] ++ g.inputs.map Nat.repr)
      [g.op]
    have hplen : ([Nat.repr g.inputs.length, Nat.repr g.outputs.length] ++
        g.inputs.map Nat.repr).length = 2 + g.inputs.length := by
      simp
      omega
    rw [hplen] at this
    simpa [hl] using this
  have hoplast : l.get? (g.inputs.length + g.outputs.length + 2) = some g.op := by
    rw [hl]
    rw [show [Nat.repr g.inputs.length, Nat.repr g.outputs.length] ++
        g.inputs.map Nat.repr ++ g.outputs.map Nat.repr ++ [g.op] =
        ([Nat.repr g.inputs.length, Nat.repr g.outputs.length] ++
         g.inputs.map Nat.repr ++ g.outputs.map Nat.repr) ++ [g.op] from by simp]
    have hplen : ([Nat.repr g.inputs.length, Nat.repr g.outputs.length] ++
        g.inputs.map Nat.repr ++ g.outputs.map Nat.repr).length =
        g.inputs.length + g.outputs.length + 2 := by
      simp
    rw [List.get?_append_right (by rw [hplen])]
    rw [hplen]
    simp
  rw [hins, except_bind_ok, houts, except_bind_ok,
      getString_eval l _ g.op hoplast, except_bind_ok]
  rfl

theorem read_not_blank (l : String) (ls : List String) (h : isBlank l = false) :
    BristolLine.read (l :: ls) = some (splitWs l, ls) := by
  simp [BristolLine.read, h]

theorem read_blank (l : String) (ls : List String) (h : isBlank l = true) :
    BristolLine.read (l :: ls) = BristolLine.read ls := by
  simp [BristolLine.read, h]

theorem display_not_blank (g : Gate) : isBlank g.display = false :=
  token_line_not_blank _ _ _ (display_data g)
    (repr_goodTok g.inputs.length).1 (repr_goodTok g.inputs.length).2

theorem sizes_line_not_blank (a b : Nat) :
    isBlank (Nat.repr a ++ " " ++ Nat.repr b) = false :=
  token_line_not_blank _ _ _ (sizes_line_data a b)
    (repr_goodTok a).1 (repr_goodTok a).2

theorem ports_line_not_blank (k : Nat) :
    isBlank (Nat.repr k ++ writeOnes k) = false :=
  token_line_not_blank _ _ _ (ports_line_data k)
    (repr_goodTok k).1 (repr_goodTok k).2

theorem readGates_displays : ∀ (gs : List Gate) (tail : List String),
    (∀ g ∈ gs, GoodTok g.op.data) →
    readGates gs.length (gs.map Gate.display ++ tail) = .ok (gs, tail) := by
  intro gs
  induction gs with
  | nil => intro tail _; rfl
  | cons g gs ih =>
    intro tail h
    show readGates (gs.length + 1) (g.display :: (gs.map Gate.display ++ tail)) = _
    simp only [readGates, read_not_blank _ _ (display_not_blank g),
        gate_display_parse g (h g (by simp)),
        ih tail (fun g' hg' => h g' (by simp [hg']))]

theorem readGates_skip_blank (n : Nat) (b : String) (ls : List String)
    (hb : isBlank b = true) :
    readGates (n + 1) (b :: ls) = readGates (n + 1) ls := by
  unfold readGates
  rw [read_blank b ls hb]

theorem blank_empty : isBlank "" = true := rfl

theorem replicate_one_chars (k : Nat) :
    ∀ u ∈ List.replicate k ['1'], ∀ c ∈ u, isWs c = false := by
  intro u hu c hc
  rw [List.eq_of_mem_replicate hu] at hc
  simp at hc
  rw [hc]
  decide

theorem display_ts_chars (g : Gate) (hop : GoodTok g.op.data) :
    ∀ u ∈ ([(Nat.repr g.outputs.length).data] ++
      g.inputs.map (fun i => (Nat.repr i).data) ++
      g.outputs.map (fun o => (Nat.repr o).data) ++ [g.op.data]),
      ∀ c ∈ u, isWs c = false := by
  intro u hu
  rcases List.mem_append.mp hu with hu | hu
  · rcases List.mem_append.mp hu with hu | hu
    · rcases List.mem_append.mp hu with hu | hu
      · rw [List.mem_singleton.mp hu]
        exact (repr_goodTok _).2
      · obtain ⟨i, _, hi⟩ := List.mem_map.mp hu
        rw [← hi]
        exact (repr_goodTok i).2
    · obtain ⟨o, _, ho⟩ := List.mem_map.mp hu
      rw [← ho]
      exact (repr_goodTok o).2
  · rw [List.mem_singleton.mp hu]
    exact hop.2

theorem writeLines_no_nl (c : BristolCircuit)
    (hops : ∀ g ∈ c.gates, GoodTok g.op.data) :
    ∀ l ∈ c.writeLines, ∀ ch ∈ l.data, ch ≠ '\n' := by
  intro l hl
  simp only [BristolCircuit.writeLines, List.cons_append, List.nil_append,
    List.mem_cons, List.mem_map] at hl
  rcases hl with h | h | h | h | hg
  · rw [h]
    exact token_line_no_nl _ _ _ (sizes_line_data c.gates.length c.wire_count)
      (repr_goodTok _).2
      (by intro u hu; rw [List.mem_singleton.mp hu]; exact (repr_goodTok _).2)
  · rw [h]
    exact token_line_no_nl _ _ _ (ports_line_data _)
      (repr_goodTok _).2 (replicate_one_chars _)
  · rw [h]
    exact token_line_no_nl _ _ _ (ports_line_data _)
      (repr_goodTok _).2 (replicate_one_chars _)
  · rw [h]
    intro ch hch
    simp at hch
  · obtain ⟨g, hgmem, hgl⟩ := hg
    rw [← hgl]
    exact token_line_no_nl _ _ _ (display_data g)
      (repr_goodTok _).2 (display_ts_chars g (hops g hgmem))

theorem readGates_section (gs : List Gate) (hops : ∀ g ∈ gs, GoodTok g.op.data) :
    ∃ rest, readGates gs.length ("" :: (gs.map Gate.display ++ [""])) = .ok (gs, rest) ∧
      checkTrailing rest = .ok () := by
  cases gs with
  | nil => exact ⟨["", ""], rfl, rfl⟩
  | cons g gs =>
    refine ⟨[""], ?_, rfl⟩
    rw [show (g :: gs).length = gs.length + 1 from rfl,
        readGates_skip_blank _ _ _ blank_empty]
    exact readGates_displays (g :: gs) [""] hops

/-! ### Inversion and stream-extension lemmas -/

theorem getNatsFrom_length : ∀ (k start : Nat) (l : List String) (vs : List Nat),
    getNatsFrom l start k = .ok vs → vs.length = k := by
  intro k
  induction k with
  | zero =>
    intro start l vs h
    unfold getNatsFrom at h
    cases h
    rfl
  | succ k ih =>
    intro start l vs h
    unfold getNatsFrom at h
    cases hv : BristolLine.get l start with
    | error e => rw [hv] at h; cases h
    | ok v =>
      rw [hv, except_bind_ok] at h
      cases hvs : getNatsFrom l (start + 1) k with
      | error e => rw [hvs] at h; cases h
      | ok vs2 =>
        rw [hvs, except_bind_ok] at h
        cases h
        simp [ih (start + 1) l vs2 hvs]

theorem checkOnesFrom_ok_iff : ∀ (ts : List String) (i : Nat),
    checkOnesFrom ts i = .ok () ↔ ∀ t ∈ ts, t = "1" := by
  intro ts
  induction ts with
  | nil => intro i; simp [checkOnesFrom]
  | cons t ts ih =>
    intro i
    unfold checkOnesFrom
    by_cases ht : t = "1"
    · rw [if_pos ht]
      rw [ih (i + 1)]
      simp [ht]
    · rw [if_neg ht]
      constructor
      · intro h; cases h
      · intro h
        exact absurd (h t (by simp)) ht

theorem checkTrailing_eq : ∀ ls : List String,
    checkTrailing ls = (if ls.all isBlank then .ok () else
      .error (.ParsingError "Unexpected non-whitespace line after gates")) := by
  intro ls
  induction ls with
  | nil => rfl
  | cons l ls ih =>
    unfold checkTrailing
    cases hb : isBlank l with
    | false => simp [hb]
    | true => simp [hb, ih]

theorem read_append (ls ex : List String) (t : List String) (rest : List String)
    (h : BristolLine.read ls = some (t, rest)) :
    BristolLine.read (ls ++ ex) = some (t, rest ++ ex) := by
  induction ls with
  | nil => cases h
  | cons l ls ih =>
    rw [List.cons_append]
    cases hb : isBlank l with
    | true =>
      rw [read_blank l ls hb] at h
      rw [read_blank l (ls ++ ex) hb]
      exact ih h
    | false =>
      rw [read_not_blank l ls hb] at h
      rw [read_not_blank l (ls ++ ex) hb]
      obtain ⟨h1, h2⟩ := Prod.mk.injEq _ _ _ _ ▸ Option.some.injEq _ _ ▸ h
      rw [h1, h2]

theorem readGates_append : ∀ (n : Nat) (ls ex : List String) (gs : List Gate)
    (rest : List String), readGates n ls = .ok (gs, rest) →
    readGates n (ls ++ ex) = .ok (gs, rest ++ ex) := by
  intro n
  induction n with
  | zero =>
    intro ls ex gs rest h
    cases h
    rfl
  | succ n ih =>
    intro ls ex gs rest h
    cases hr : BristolLine.read ls with
    | none => simp only [readGates, hr] at h; cases h
    | some p =>
      obtain ⟨t, rest1⟩ := p
      simp only [readGates, hr] at h
      cases hg : BristolLine.gate t with
      | error e => simp only [hg] at h; cases h
      | ok g =>
        simp only [hg] at h
        cases hrec : readGates n rest1 with
        | diverges => simp only [hrec] at h; cases h
        | error e => simp only [hrec] at h; cases h
        | ok p2 =>
          obtain ⟨gs2, rest2⟩ := p2
          simp only [hrec, ReadOutcome.ok.injEq, Prod.mk.injEq] at h
          obtain ⟨h1, h2⟩ := h
          subst h1
          subst h2
          simp only [readGates, read_append ls ex t rest1 hr, hg,
            ih rest1 ex gs2 rest2 hrec]

/-- Inverting a successful run of `read_info_and_bristol` into its steps. -/
theorem read_ok_inversion (info : CircuitInfo) (ls : List String) (c : BristolCircuit)
    (h : BristolCircuit.read_info_and_bristol info ls = .ok c) :
    ∃ l1 ls1 l2 ls2 l3 ls3 gc wc nin nout gs rest,
      BristolLine.read ls = some (l1, ls1) ∧
      BristolLine.circuit_sizes l1 = .ok (gc, wc) ∧
      BristolLine.read ls1 = some (l2, ls2) ∧
      BristolLine.io_count l2 = .ok nin ∧
      nin = info.input_name_to_wire_index.length ∧
      BristolLine.read ls2 = some (l3, ls3) ∧
      BristolLine.io_count l3 = .ok nout ∧
      nout = info.output_name_to_wire_index.length ∧
      readGates gc ls3 = .ok (gs, rest) ∧
      checkTrailing rest = .ok () ∧
      c = { wire_count := wc, info := info, gates := gs } := by
  cases hr1 : BristolLine.read ls with
  | none => simp only [BristolCircuit.read_info_and_bristol, hr1] at h; cases h
  | some p1 =>
    obtain ⟨l1, ls1⟩ := p1
    simp only [BristolCircuit.read_info_and_bristol, hr1] at h
    cases hsz : BristolLine.circuit_sizes l1 with
    | error e => simp only [hsz] at h; cases h
    | ok p =>
      obtain ⟨gc, wc⟩ := p
      simp only [hsz] at h
      cases hr2 : BristolLine.read ls1 with
      | none => simp only [hr2] at h; cases h
      | some p2 =>
        obtain ⟨l2, ls2⟩ := p2
        simp only [hr2] at h
        cases hio1 : BristolLine.io_count l2 with
        | error e => simp only [hio1] at h; cases h
        | ok nin =>
          simp only [hio1] at h
          by_cases hni : nin ≠ info.input_name_to_wire_index.length
          · rw [if_pos hni] at h; cases h
          · rw [if_neg hni] at h
            cases hr3 : BristolLine.read ls2 with
            | none => simp only [hr3] at h; cases h
            | some p3 =>
              obtain ⟨l3, ls3⟩ := p3
              simp only [hr3] at h
              cases hio2 : BristolLine.io_count l3 with
              | error e => simp only [hio2] at h; cases h
              | ok nout =>
                simp only [hio2] at h
                by_cases hno : nout ≠ info.output_name_to_wire_index.length
                · rw [if_pos hno] at h; cases h
                · rw [if_neg hno] at h
                  cases hgs : readGates gc ls3 with
                  | diverges => simp only [hgs] at h; cases h
                  | error e => simp only [hgs] at h; cases h
                  | ok pgs =>
                    obtain ⟨gs, rest⟩ := pgs
                    simp only [hgs] at h
                    cases hct : checkTrailing rest with
                    | error e => simp only [hct] at h; cases h
                    | ok u =>
                      simp only [hct] at h
                      refine ⟨l1, ls1, l2, ls2, l3, ls3, gc, wc, nin, nout, gs, rest,
                        rfl, hsz, hr2, hio1, not_not.mp hni, hr3, hio2, not_not.mp hno,
                        hgs, ?_, ?_⟩
                      · cases u
                        exact hct
                      · injection h with h3
                        exact h3.symm

theorem except_bind_err {α β : Type} (e : BristolCircuitError)
    (f : α → Except BristolCircuitError β) :
    ((Except.error e : Except BristolCircuitError α) >>= f) = .error e := rfl

theorem gate_ok_length (l : List String) (g : Gate)
    (h : BristolLine.gate l = .ok g) :
    l.length = g.inputs.length + g.outputs.length + 3 := by
  simp only [BristolLine.gate] at h
  cases h0 : BristolLine.get l 0 with
  | error e => rw [h0, except_bind_err] at h; cases h
  | ok a =>
    rw [h0, except_bind_ok] at h
    cases h1 : BristolLine.get l 1 with
    | error e => rw [h1, except_bind_err] at h; cases h
    | ok b =>
      rw [h1, except_bind_ok] at h
      by_cases hlen : l.length ≠ a + b + 3
      · rw [if_pos hlen] at h; cases h
      · rw [if_neg hlen] at h
        cases hins : getNatsFrom l 2 a with
        | error e => rw [hins, except_bind_err] at h; cases h
        | ok ins =>
          rw [hins, except_bind_ok] at h
          cases houts : getNatsFrom l (2 + a) b with
          | error e => rw [houts, except_bind_err] at h; cases h
          | ok outs =>
            rw [houts, except_bind_ok] at h
            cases hop : BristolLine.getString l (a + b + 2) with
            | error e => rw [hop, except_bind_err] at h; cases h
            | ok op =>
              rw [hop, except_bind_ok] at h
              injection h with hg
              rw [← hg]
              have hia : ins.length = a := getNatsFrom_length a 2 l ins hins
              have hob : outs.length = b := getNatsFrom_length b (2 + a) l outs houts
              simp only [hia, hob]
              exact not_not.mp hlen

theorem get_error_form (l : List String) (i : Nat) (e : BristolCircuitError)
    (h : BristolLine.get l i = .error e) : ∃ msg, e = .ParsingError msg := by
  unfold BristolLine.get at h
  cases hg : l.get? i with
  | none =>
    simp only [hg] at h
    injection h with he
    exact ⟨_, he.symm⟩
  | some s =>
    simp only [hg] at h
    cases hp : parseNat s with
    | none =>
      simp only [hp] at h
      injection h with he
      exact ⟨_, he.symm⟩
    | some m => simp only [hp] at h; cases h

theorem checkOnesFrom_error_form : ∀ (ts : List String) (i : Nat)
    (e : BristolCircuitError), checkOnesFrom ts i = .error e →
    ∃ msg, e = .ParsingError msg := by
  intro ts
  induction ts with
  | nil => intro i e h; cases h
  | cons t ts ih =>
    intro i e h
    unfold checkOnesFrom at h
    by_cases ht : t = "1"
    · rw [if_pos ht] at h
      exact ih (i + 1) e h
    · rw [if_neg ht] at h
      injection h with he
      exact ⟨_, he.symm⟩

theorem io_count_ok_iff (l : List String) (n : Nat) :
    BristolLine.io_count l = .ok n ↔
      BristolLine.get l 0 = .ok n ∧ l.length = n + 1 ∧ ∀ t ∈ l.drop 1, t = "1" := by
  constructor
  · intro h
    unfold BristolLine.io_count at h
    cases h0 : BristolLine.get l 0 with
    | error e => rw [h0, except_bind_err] at h; cases h
    | ok cnt =>
      rw [h0, except_bind_ok] at h
      by_cases hlen : l.length ≠ cnt + 1
      · rw [if_pos hlen] at h; cases h
      · rw [if_neg hlen] at h
        cases hco : checkOnesFrom (l.drop 1) 1 with
        | error e => rw [hco] at h; cases h
        | ok u =>
          rw [hco] at h
          cases u
          injection h with hcn
          subst hcn
          exact ⟨rfl, not_not.mp hlen, (checkOnesFrom_ok_iff (l.drop 1) 1).mp hco⟩
  · rintro ⟨h0, hlen, hones⟩
    unfold BristolLine.io_count
    rw [h0, except_bind_ok, if_neg (by rw [hlen]; exact fun hc => hc rfl),
        (checkOnesFrom_ok_iff (l.drop 1) 1).mpr hones]
    rfl

theorem io_count_error_form (l : List String) (e : BristolCircuitError)
    (h : BristolLine.io_count l = .error e) : ∃ msg, e = .ParsingError msg := by
  unfold BristolLine.io_count at h
  cases h0 : BristolLine.get l 0 with
  | error e0 =>
    rw [h0, except_bind_err] at h
    injection h with he
    subst he
    exact get_error_form l 0 e0 h0
  | ok cnt =>
    rw [h0, except_bind_ok] at h
    by_cases hlen : l.length ≠ cnt + 1
    · rw [if_pos hlen] at h
      injection h with he
      exact ⟨_, he.symm⟩
    · rw [if_neg hlen] at h
      cases hco : checkOnesFrom (l.drop 1) 1 with
      | error e1 =>
        rw [hco] at h
        injection h with he
        subst he
        exact checkOnesFrom_error_form (l.drop 1) 1 e1 hco
      | ok u =>
        rw [hco] at h
        cases u
        cases h

/-! ### Width tokens other than `"1"` -/

theorem data_eq_nil_iff (w : String) : w.data = [] ↔ w = "" := by
  constructor
  · intro h
    rw [← mk_data w, h]
  · intro h
    rw [h]

theorem splitWs_one_w (w : String) (hne : w ≠ "")
    (hws : ∀ c ∈ w.data, isWs c = false) :
    splitWs ("1 " ++ w) = ["1", w] := by
  show splitWsAux ("1 " ++ w).data [] = _
  rw [show ("1 " ++ w).data = ['1'] ++ ' ' :: w.data from by
    simp [String.data_append]]
  rw [splitWsAux_token_space ['1'] w.data (by simp)
      (by intro c hc; simp at hc; subst hc; decide)]
  rw [splitWsAux_token_end w.data (fun hc => hne ((data_eq_nil_iff w).mp hc)) hws]

theorem one_w_not_blank (w : String) : isBlank ("1 " ++ w) = false := by
  unfold isBlank
  rw [show ("1 " ++ w).data = '1' :: ' ' :: w.data from by simp [String.data_append]]
  simp [List.all_cons, show isWs '1' = false from by decide]

theorem io_count_one_w (w : String) (hw : w ≠ "1") :
    BristolLine.io_count ["1", w] =
      .error (.ParsingError "Expected 1 at index 1") := by
  unfold BristolLine.io_count
  rw [get_eval ["1", w] 0 1 rfl, except_bind_ok,
      if_neg (show ¬((["1", w] : List String).length ≠ 1 + 1) from fun hc => hc rfl)]
  have hco : checkOnesFrom ((["1", w] : List String).drop 1) 1 =
      .error (.ParsingError "Expected 1 at index 1") := by
    show checkOnesFrom [w] 1 = _
    unfold checkOnesFrom
    rw [if_neg hw]
    decide
  rw [hco]

/-! ### Sample circuits used in concrete statements -/

/-- The worked example of the crate's tests: `d = (a + b) * b`. -/
def sampleInfo : CircuitInfo :=
  { input_name_to_wire_index := [("input0", 0), ("input1", 1)],
    constants := [],
    output_name_to_wire_index := [("output0", 3)] }

/-- The worked-example circuit: wire count 4, two gates. -/
def sampleCircuit : BristolCircuit :=
  { wire_count := 4,
    info := sampleInfo,
    gates := [{ inputs := [0, 1], outputs := [2], op := "AAdd" },
              { inputs := [2, 1], outputs := [3], op := "AMul" }] }

/-- A one-input, one-output metadata record for small port-line experiments. -/
def smallInfo : CircuitInfo :=
  { input_name_to_wire_index := [("a", 0)],
    constants := [],
    output_name_to_wire_index := [("b", 0)] }

/-- Same wire count, gates and map sizes as `sampleCircuit`, but different
names, wire indices and a non-empty constants map. -/
def renamedCircuit : BristolCircuit :=
  { wire_count := 4,
    info := { input_name_to_wire_index := [("x", 7), ("y", 9)],
              constants := [("c0", { value := "42", wire_index := 5 })],
              output_name_to_wire_index := [("z", 0)] },
    gates := [{ inputs := [0, 1], outputs := [2], op := "AAdd" },
              { inputs := [2, 1], outputs := [3], op := "AMul" }] }

/-! ### The claims -/

/-- **C1**: for every `BristolCircuit` whose gate op labels are single
non-empty whitespace-free tokens, parsing the text produced by
`write_bristol`/`get_bristol_string` back with the same `CircuitInfo` via
`from_info_and_bristol_string`/`read_info_and_bristol` returns a circuit
equal to the original.  (The circuit type of this crate stores no width
vectors, so the writer's port lines are always all-`1` and the
width-normalization exception is vacuous.) -/
theorem C1_round_trip (c : BristolCircuit) (s : String)
    (hops : ∀ g ∈ c.gates, g.op.data ≠ [] ∧ ∀ ch ∈ g.op.data, isWs ch = false)
    (hs : c.get_bristol_string = .ok s) :
    BristolCircuit.from_info_and_bristol_string c.info s = .ok c := by
  injection hs with hs2
  subst hs2
  have hops2 : ∀ g ∈ c.gates, GoodTok g.op.data := hops
  have hlines : linesOf c.write_bristol = c.writeLines ++ [""] :=
    linesOf_joinLines c.writeLines (writeLines_no_nl c hops2)
  obtain ⟨rest, hr, hct⟩ := readGates_section c.gates hops2
  unfold BristolCircuit.from_info_and_bristol_string
  rw [hlines]
  have hexp : c.writeLines ++ [""] =
      (Nat.repr c.gates.length ++ " " ++ Nat.repr c.wire_count) ::
      (Nat.repr c.info.input_name_to_wire_index.length ++
        writeOnes c.info.input_name_to_wire_index.length) ::
      (Nat.repr c.info.output_name_to_wire_index.length ++
        writeOnes c.info.output_name_to_wire_index.length) ::
      "" :: (c.gates.map Gate.display ++ [""]) := by
    simp [BristolCircuit.writeLines]
  rw [hexp]
  simp only [BristolCircuit.read_info_and_bristol,
    read_not_blank _ _ (sizes_line_not_blank c.gates.length c.wire_count),
    read_not_blank _ _ (ports_line_not_blank c.info.input_name_to_wire_index.length),
    read_not_blank _ _ (ports_line_not_blank c.info.output_name_to_wire_index.length),
    splitWs_sizes_line, splitWs_ports_line,
    circuit_sizes_eval c.gates.length c.wire_count
      [Nat.repr c.gates.length, Nat.repr c.wire_count] rfl rfl,
    io_count_ports, ne_eq, eq_self_iff_true, not_true_eq_false, if_false, hr, hct]

/-- Witness for **C1** at the worked-example circuit. -/
theorem C1_round_trip_witness :
    BristolCircuit.from_info_and_bristol_string sampleCircuit.info
      sampleCircuit.write_bristol = .ok sampleCircuit :=
  C1_round_trip sampleCircuit sampleCircuit.write_bristol (by decide) rfl

/-- **C2**: the specific two-gate circuit of the spec serializes to exactly
the expected text, and parsing that text with the matching `CircuitInfo`
reproduces the original circuit. -/
theorem C2_worked_example :
    sampleCircuit.get_bristol_string =
      .ok "2 4\n2 1 1\n1 1\n\n2 1 0 1 2 AAdd\n2 1 2 1 3 AMul\n" ∧
    BristolCircuit.from_info_and_bristol_string sampleInfo
      "2 4\n2 1 1\n1 1\n\n2 1 0 1 2 AAdd\n2 1 2 1 3 AMul\n" = .ok sampleCircuit := by
  constructor
  · decide
  · decide

/-- **C3** (counterexample): the width token `"2"` parses as a positive
integer, yet the read does not succeed with stored widths — it fails with
`ParsingError`.  The circuit type has no width field at all. -/
theorem C3_counterexample :
    parseNat "2" = some 2 ∧
    BristolCircuit.read_info_and_bristol smallInfo ["0 1", "1 2", "1 1"] =
      .error (.ParsingError "Expected 1 at index 1") := by
  constructor
  · decide
  · decide

/-- **C3** (amended): after the port lines are parsed, no width information
is stored anywhere (the returned circuit is just wire count, info and gates);
a width token equal to `"1"` is accepted, and any other single non-blank
width token makes the read fail with `ParsingError` instead of succeeding. -/
theorem C3_width_handling (w : String) (hne : w ≠ "")
    (hws : ∀ ch ∈ w.data, isWs ch = false) :
    BristolCircuit.read_info_and_bristol smallInfo ["0 1", "1 " ++ w, "1 1"] =
      (if w = "1" then .ok { wire_count := 1, info := smallInfo, gates := [] }
       else .error (.ParsingError "Expected 1 at index 1")) := by
  by_cases hw : w = "1"
  · subst hw
    rw [if_pos rfl]
    decide
  · rw [if_neg hw]
    simp only [BristolCircuit.read_info_and_bristol,
      read_not_blank "0 1" _ (by decide),
      show splitWs "0 1" = ["0", "1"] from by decide,
      circuit_sizes_eval 0 1 ["0", "1"] rfl rfl,
      read_not_blank ("1 " ++ w) _ (one_w_not_blank w),
      splitWs_one_w w hne hws,
      io_count_one_w w hw]

/-- Witness for **C3** at the width token `"2"`. -/
theorem C3_width_handling_witness :
    BristolCircuit.read_info_and_bristol smallInfo ["0 1", "1 " ++ "2", "1 1"] =
      (if ("2" : String) = "1"
       then .ok { wire_count := 1, info := smallInfo, gates := [] }
       else .error (.ParsingError "Expected 1 at index 1")) :=
  C3_width_handling "2" (by decide) (by decide)

/-- **C4**: the claim says every read terminates, with truncated streams
surfacing as errors.  In the code, `read_line` returns `Ok(0)` at end of
file with an empty buffer, so the skip-blank loop of `BristolLine::read`
never exits: on these truncated inputs the call diverges instead of
returning an error. -/
theorem C4_truncated_stream_diverges :
    BristolCircuit.from_info_and_bristol_string sampleInfo "2 4\n2 1 1\n1 1\n" =
      .diverges ∧
    BristolCircuit.from_info_and_bristol_string sampleInfo "" = .diverges := by
  constructor
  · decide
  · decide

/-- **C5**: a gate line parses successfully only when its token count is
exactly `input_arity + output_arity + 3`; the five-token line
`"2 1 0 1 2"` (missing op label) fails with a `ParsingError` whose message
names the length mismatch. -/
theorem C5_gate_token_count :
    (∀ (l : List String) (g : Gate), BristolLine.gate l = .ok g →
      l.length = g.inputs.length + g.outputs.length + 3) ∧
    BristolLine.gate ["2", "1", "0", "1", "2"] =
      .error (.ParsingError "Inconsistent part length (actual: 5, expected: 6)") :=
  ⟨gate_ok_length, by decide⟩

/-- Witness for **C5** on a well-formed six-token gate line. -/
theorem C5_gate_token_count_witness :
    BristolLine.gate ["2", "1", "0", "1", "2", "AAdd"] =
      .ok { inputs := [0, 1], outputs := [2], op := "AAdd" } ∧
    (["2", "1", "0", "1", "2", "AAdd"] : List String).length = 2 + 1 + 3 :=
  ⟨by decide, C5_gate_token_count.1 ["2", "1", "0", "1", "2", "AAdd"]
    { inputs := [0, 1], outputs := [2], op := "AAdd" } (by decide)⟩

/-- **C6**: when the header lines parse but the declared input port count
differs from the size of `info.input_name_to_wire_index` (or symmetrically
for outputs), the read fails with the `Inconsistency` variant, not with
`ParsingError`. -/
theorem C6_arity_mismatch_inconsistency :
    (∀ (info : CircuitInfo) (s1 s2 : String) (rest : List String) (gc wc n : Nat),
      isBlank s1 = false → isBlank s2 = false →
      BristolLine.circuit_sizes (splitWs s1) = .ok (gc, wc) →
      BristolLine.io_count (splitWs s2) = .ok n →
      n ≠ info.input_name_to_wire_index.length →
      BristolCircuit.read_info_and_bristol info (s1 :: s2 :: rest) =
        .error (.Inconsistency "Input count mismatch")) ∧
    (∀ (info : CircuitInfo) (s1 s2 s3 : String) (rest : List String)
      (gc wc nin nout : Nat),
      isBlank s1 = false → isBlank s2 = false → isBlank s3 = false →
      BristolLine.circuit_sizes (splitWs s1) = .ok (gc, wc) →
      BristolLine.io_count (splitWs s2) = .ok nin →
      nin = info.input_name_to_wire_index.length →
      BristolLine.io_count (splitWs s3) = .ok nout →
      nout ≠ info.output_name_to_wire_index.length →
      BristolCircuit.read_info_and_bristol info (s1 :: s2 :: s3 :: rest) =
        .error (.Inconsistency "Output count mismatch")) := by
  constructor
  · intro info s1 s2 rest gc wc n hb1 hb2 hsz hio hne
    simp only [BristolCircuit.read_info_and_bristol, read_not_blank s1 _ hb1,
      hsz, read_not_blank s2 _ hb2, hio, if_pos hne]
  · intro info s1 s2 s3 rest gc wc nin nout hb1 hb2 hb3 hsz hio1 heq hio2 hne
    simp only [BristolCircuit.read_info_and_bristol, read_not_blank s1 _ hb1,
      hsz, read_not_blank s2 _ hb2, hio1,
      if_neg (show ¬nin ≠ info.input_name_to_wire_index.length from
        fun hc => hc heq),
      read_not_blank s3 _ hb3, hio2, if_pos hne]

/-- Witness for **C6**: three declared inputs against a two-entry map. -/
theorem C6_arity_mismatch_inconsistency_witness :
    BristolCircuit.read_info_and_bristol sampleInfo ["2 4", "3 1 1 1", "1 1"] =
      .error (.Inconsistency "Input count mismatch") :=
  C6_arity_mismatch_inconsistency.1 sampleInfo "2 4" "3 1 1 1" ["1 1"] 2 4 3
    (by decide) (by decide) (by decide) (by decide) (by decide)

/-- **C7** (counterexample): the line `"1 2"` has the correct token count
(`count + 1`) and its width token `"2"` parses as a positive integer, yet
`io_count` rejects it — widths are compared against the literal `"1"`, not
parsed as integers. -/
theorem C7_counterexample :
    parseNat "2" = some 2 ∧
    BristolLine.io_count ["1", "2"] =
      .error (.ParsingError "Expected 1 at index 1") := by
  constructor
  · decide
  · decide

/-- **C7** (amended): a port line is accepted exactly when its first token
parses as the count `n`, the token count is `n + 1`, and every width token
is the literal string `"1"`; every failure of `io_count` is a
`ParsingError`. -/
theorem C7_port_line_grammar :
    (∀ (l : List String) (n : Nat), BristolLine.io_count l = .ok n ↔
      BristolLine.get l 0 = .ok n ∧ l.length = n + 1 ∧ ∀ t ∈ l.drop 1, t = "1") ∧
    (∀ (l : List String) (e : BristolCircuitError),
      BristolLine.io_count l = .error e → ∃ msg, e = .ParsingError msg) :=
  ⟨io_count_ok_iff, io_count_error_form⟩

/-- Witness for **C7**: the all-ones line `"2 1 1"` is accepted, and the
rejection of `"1 2"` is a `ParsingError`. -/
theorem C7_port_line_grammar_witness :
    BristolLine.io_count ["2", "1", "1"] = .ok 2 ∧
    (∃ msg, BristolCircuitError.ParsingError "Expected 1 at index 1" =
      .ParsingError msg) :=
  ⟨(C7_port_line_grammar.1 ["2", "1", "1"] 2).mpr
      ⟨by decide, by decide, by decide⟩,
   C7_port_line_grammar.2 ["1", "2"] _ (by decide)⟩

/-- **C8**: once a stream parses successfully, appending trailing lines
keeps the result unchanged exactly when all of them are blank after
trimming; any non-blank trailing line turns the result into the
`ParsingError` for unexpected content after the gates. -/
theorem C8_trailing_lines (info : CircuitInfo) (ls extra : List String)
    (c : BristolCircuit)
    (h : BristolCircuit.read_info_and_bristol info ls = .ok c) :
    BristolCircuit.read_info_and_bristol info (ls ++ extra) =
      (if extra.all isBlank then .ok c
       else .error (.ParsingError "Unexpected non-whitespace line after gates")) := by
  obtain ⟨l1, ls1, l2, ls2, l3, ls3, gc, wc, nin, nout, gs, rest,
    hr1, hsz, hr2, hio1, hnin, hr3, hio2, hnout, hgs, hct, hc⟩ :=
    read_ok_inversion info ls c h
  have hrest : rest.all isBlank = true := by
    have hce := checkTrailing_eq rest
    rw [hct] at hce
    by_cases hb : rest.all isBlank
    · exact hb
    · rw [if_neg hb] at hce
      cases hce
  simp only [BristolCircuit.read_info_and_bristol,
    read_append ls extra l1 ls1 hr1, hsz,
    read_append ls1 extra l2 ls2 hr2, hio1,
    if_neg (show ¬nin ≠ info.input_name_to_wire_index.length from
      fun hcon => hcon hnin),
    read_append ls2 extra l3 ls3 hr3, hio2,
    if_neg (show ¬nout ≠ info.output_name_to_wire_index.length from
      fun hcon => hcon hnout),
    readGates_append gc ls3 extra gs rest hgs,
    checkTrailing_eq (rest ++ extra), List.all_append, hrest, Bool.true_and]
  by_cases hex : extra.all isBlank = true
  · simp only [if_pos hex]
    rw [hc]
  · simp only [if_neg hex]

/-- Witness for **C8**: a non-blank trailing line after a parse that
succeeds turns the result into a `ParsingError`. -/
theorem C8_trailing_lines_witness :
    BristolCircuit.read_info_and_bristol smallInfo
      (["0 1", "1 1", "1 1"] ++ ["x"]) =
      (if (["x"] : List String).all isBlank
       then .ok { wire_count := 1, info := smallInfo, gates := [] }
       else .error (.ParsingError "Unexpected non-whitespace line after gates")) :=
  C8_trailing_lines smallInfo ["0 1", "1 1", "1 1"] ["x"]
    { wire_count := 1, info := smallInfo, gates := [] } (by decide)

/-- **C9**: whenever `read_info_and_bristol` succeeds, the `info` field of
the returned circuit is exactly the caller-supplied `info`. -/
theorem C9_info_preserved (info : CircuitInfo) (ls : List String)
    (c : BristolCircuit)
    (h : BristolCircuit.read_info_and_bristol info ls = .ok c) :
    c.info = info := by
  obtain ⟨l1, ls1, l2, ls2, l3, ls3, gc, wc, nin, nout, gs, rest,
    hr1, hsz, hr2, hio1, hnin, hr3, hio2, hnout, hgs, hct, hc⟩ :=
    read_ok_inversion info ls c h
  rw [hc]

/-- Witness for **C9** at a concrete successful read. -/
theorem C9_info_preserved_witness :
    ({ wire_count := 1, info := smallInfo, gates := [] } : BristolCircuit).info =
      smallInfo :=
  C9_info_preserved smallInfo ["0 1", "1 1", "1 1"]
    { wire_count := 1, info := smallInfo, gates := [] } (by decide)

/-- **C10**: the text produced by `write_bristol` depends only on the wire
count, the gate list, and the sizes of the two name maps; names, wire
indices and the constants map never influence the output. -/
theorem C10_write_ignores_names (c1 c2 : BristolCircuit)
    (hw : c1.wire_count = c2.wire_count) (hg : c1.gates = c2.gates)
    (hi : c1.info.input_name_to_wire_index.length =
      c2.info.input_name_to_wire_index.length)
    (ho : c1.info.output_name_to_wire_index.length =
      c2.info.output_name_to_wire_index.length) :
    c1.write_bristol = c2.write_bristol := by
  unfold BristolCircuit.write_bristol BristolCircuit.writeLines
  rw [hw, hg, hi, ho]

/-- Witness for **C10**: renaming ports, moving their wire indices and
adding a constant leaves the serialized text unchanged. -/
theorem C10_write_ignores_names_witness :
    sampleCircuit.write_bristol = renamedCircuit.write_bristol :=
  C10_write_ignores_names sampleCircuit renamedCircuit rfl rfl rfl rfl
